import Mathlib

/-!
Shallow embedding of the valuation core of
"pharmagellan_biotech_financial_model.py" and verification of its
specification.

Numbers are modelled as exact rationals (the Python code computes with
floats; the spec treats the computations as exact real arithmetic and
asks implementations to match "to floating-point tolerance").  Python
code that can raise at runtime (division by zero inside the NPV sum) is
modelled in the "Except" monad with an explicit error type.
-/

namespace Pharmagellan

/-- Error kinds that can occur when running the embedded code.
"zeroDivision" models Python's built-in ZeroDivisionError, raised by the
interpreter when a division's denominator is zero.  "invalidInput"
models the InvalidInput error kind of the specification's error taxonomy
(a numeric field outside its documented domain, rejected by an explicit
input-validation step); the source contains no such validation, the
constructor exists so that statements about that error kind can be
expressed. -/
inductive PyError where
  | zeroDivision : PyError
  | invalidInput : PyError
deriving DecidableEq, Repr

/-- Module-level constant DEFAULT_DISCOUNT_RATE = 0.10. -/
def DEFAULT_DISCOUNT_RATE : ℚ := 10 / 100

/-- Clinical phases, the keys of the two probability tables. -/
inductive Phase where
  | phase1 : Phase
  | phase2 : Phase
  | phase3 : Phase
deriving DecidableEq, Repr

/-- The PHASE_PROBABILITIES table of the source: standard (non-rare)
success probabilities per clinical phase. -/
def PHASE_PROBABILITIES : Phase → ℚ
  | Phase.phase1 => 60 / 100
  | Phase.phase2 => 36 / 100
  | Phase.phase3 => 63 / 100

/-- The RARE_DISEASE_PHASE_PROBABILITIES table of the source. -/
def RARE_DISEASE_PHASE_PROBABILITIES : Phase → ℚ
  | Phase.phase1 => 70 / 100
  | Phase.phase2 => 45 / 100
  | Phase.phase3 => 80 / 100

/-- Embedding of numpy.linspace(start, stop, num) with the default
endpoint=True: num evenly spaced points from start to stop inclusive;
for num = 1 numpy returns just [start], and for num = 0 the empty
array. -/
def linspace (start stop : ℚ) (num : ℕ) : List ℚ :=
  if num ≤ 1 then
    (List.range num).map (fun _ => start)
  else
    (List.range num).map
      (fun (i : ℕ) => start + (stop - start) * (i : ℚ) / ((num : ℚ) - 1))

/-- Sum of the terms cf / (1 + rate) ^ t for (t, cf) running over
enumerate(cash_flows, start), the body of calculate_npv generalised
over the start index for reasoning. -/
def npvFrom (discount_rate : ℚ) (start : ℕ) (cash_flows : List ℚ) : ℚ :=
  ((List.enumFrom start cash_flows).map
    (fun p => p.2 / (1 + discount_rate) ^ p.1)).sum

/-- calculate_npv(cash_flows, discount_rate): the sum of
cf / (1 + discount_rate) ** t over enumerate(cash_flows, start=1).
Pure value-level embedding; division by zero (possible only when
discount_rate = -1 and the list is nonempty) is the total Lean division
here, the runtime behaviour is captured by npvE below. -/
def calculate_npv (cash_flows : List ℚ) (discount_rate : ℚ) : ℚ :=
  npvFrom discount_rate 1 cash_flows

/-- Runtime-faithful version of the summation inside calculate_npv:
Python evaluates the generator terms left to right and raises
ZeroDivisionError at the first term whose denominator (1 + rate) ** t
is zero. -/
def npvTermsE (discount_rate : ℚ) : ℕ → List ℚ → Except PyError ℚ
  | _, [] => Except.ok 0
  | t, cf :: rest =>
    if (1 + discount_rate) ^ t = 0 then
      Except.error PyError.zeroDivision
    else
      match npvTermsE discount_rate (t + 1) rest with
      | Except.error e => Except.error e
      | Except.ok s => Except.ok (cf / (1 + discount_rate) ^ t + s)

/-- calculate_npv as actually executed by Python: either the NPV value
or the ZeroDivisionError raised when some denominator is zero. -/
def npvE (cash_flows : List ℚ) (discount_rate : ℚ) : Except PyError ℚ :=
  npvTermsE discount_rate 1 cash_flows

/-- peak_revenue = eligible_population * price_per_patient *
(market_penetration / 100), the first line of calculate_revenue_curve. -/
def peak_revenue_of (eligible_population price_per_patient market_penetration : ℚ) : ℚ :=
  eligible_population * price_per_patient * (market_penetration / 100)

/-- Ramp-up phase of calculate_revenue_curve:
[peak_revenue * p for p in np.linspace(0.1, 1.0, ramp_years)]. -/
def ramp_curve (peak_revenue : ℚ) (ramp_years : ℕ) : List ℚ :=
  (linspace (1 / 10) 1 ramp_years).map (fun p => peak_revenue * p)

/-- Peak phase of calculate_revenue_curve: [peak_revenue] * peak_years. -/
def peak_curve (peak_revenue : ℚ) (peak_years : ℕ) : List ℚ :=
  List.replicate peak_years peak_revenue

/-- Decline phase of calculate_revenue_curve:
[peak_revenue * ((1 - decline_rate) ** year) for year in
range(1, decline_years + 1)]. -/
def decline_curve (peak_revenue : ℚ) (decline_years : ℕ) (decline_rate : ℚ) : List ℚ :=
  (List.range' 1 decline_years).map
    (fun year => peak_revenue * (1 - decline_rate) ^ year)

/-- calculate_revenue_curve: ramp, peak and decline phases concatenated. -/
def calculate_revenue_curve (eligible_population price_per_patient market_penetration : ℚ)
    (ramp_years peak_years decline_years : ℕ) (decline_rate : ℚ) : List ℚ :=
  let peak_revenue := peak_revenue_of eligible_population price_per_patient market_penetration
  ramp_curve peak_revenue ramp_years ++
    peak_curve peak_revenue peak_years ++
    decline_curve peak_revenue decline_years decline_rate

/-- simulate_pipeline_cash_flows: delay_years entries of -500e6 followed
by the revenue curve. -/
def simulate_pipeline_cash_flows (eligible_population price_per_patient market_penetration : ℚ)
    (delay_years : ℕ) (ramp_years peak_years decline_years : ℕ) (decline_rate : ℚ) : List ℚ :=
  List.replicate delay_years (-500000000) ++
    calculate_revenue_curve eligible_population price_per_patient market_penetration
      ramp_years peak_years decline_years decline_rate

/-- Risk adjustment as performed in the app's main loop:
[cf * phase_probability for cf in cash_flows]. -/
def risk_adjusted_cash_flows (phase_probability : ℚ) (cash_flows : List ℚ) : List ℚ :=
  cash_flows.map (fun cf => cf * phase_probability)

/-- The part of the stock_data dict read by calculate_fair_market_values.
"none" in a field models the key being absent or its value being Python
None (fetch_stock_data stores None when Yahoo supplies no value); the
two cases are handled identically by the aggregator's dict.get plus
falsy coercion.  A snapshot whose shares field holds a present None
would make the Python comparison "None > 0" raise a TypeError and is
outside the modelled space. -/
structure MarketSnapshot where
  market_cap : Option ℚ
  shares_outstanding : Option ℚ
deriving DecidableEq, Repr

/-- The dict returned by calculate_fair_market_values. -/
structure ValuationResult where
  current_price_per_share : ℚ
  projected_price_per_share : ℚ
  npv_pipeline : ℚ
deriving DecidableEq, Repr

/-- market_cap = stock_data.get("market_cap", 0) or 0: an absent key or
a falsy value (None, 0) coerces to 0. -/
def coerced_market_cap (stock_data : MarketSnapshot) : ℚ :=
  match stock_data.market_cap with
  | none => 0
  | some v => if v = 0 then 0 else v

/-- shares_outstanding = stock_data.get("shares_outstanding", 1). -/
def raw_shares_outstanding (stock_data : MarketSnapshot) : ℚ :=
  stock_data.shares_outstanding.getD 1

/-- The shares value used in the projected-price division: the raw value
when positive, otherwise the 1e6 fallback installed by the
"if shares_outstanding <= 0" branch. -/
def effective_shares_outstanding (stock_data : MarketSnapshot) : ℚ :=
  if raw_shares_outstanding stock_data ≤ 0 then 1000000
  else raw_shares_outstanding stock_data

/-- projected_market_cap = max(0, market_cap + npv_pipeline). -/
def projected_market_cap (market_cap npv_pipeline : ℚ) : ℚ :=
  max 0 (market_cap + npv_pipeline)

/-- calculate_fair_market_values(stock_data, pipeline_cash_flows,
discount_rate).  The only statement that can raise is the calculate_npv
call (ZeroDivisionError when discount_rate = -1 and the flows are
nonempty); both divisions by shares are guarded (the current-price
division runs only when shares > 0, the projected-price divisor is
forced positive by the 1e6 fallback). -/
def calculate_fair_market_values (stock_data : MarketSnapshot)
    (pipeline_cash_flows : List ℚ) (discount_rate : ℚ) : Except PyError ValuationResult :=
  let market_cap := coerced_market_cap stock_data
  let shares_outstanding := raw_shares_outstanding stock_data
  let current_price_per_share : ℚ :=
    if shares_outstanding > 0 then market_cap / shares_outstanding else 0
  match npvE pipeline_cash_flows discount_rate with
  | Except.error e => Except.error e
  | Except.ok npv_pipeline =>
      Except.ok
        ⟨current_price_per_share,
         projected_market_cap market_cap npv_pipeline /
           effective_shares_outstanding stock_data,
         npv_pipeline⟩

/-! ### Helper lemmas -/

theorem npvFrom_nil (r : ℚ) (n : ℕ) : npvFrom r n [] = 0 := rfl

theorem npvFrom_cons (r : ℚ) (n : ℕ) (cf : ℚ) (l : List ℚ) :
    npvFrom r n (cf :: l) = cf / (1 + r) ^ n + npvFrom r (n + 1) l := rfl

theorem npvFrom_eq_sum (r : ℚ) :
    ∀ (l : List ℚ) (n : ℕ),
      npvFrom r n l = ∑ t ∈ Finset.range l.length, l.getD t 0 / (1 + r) ^ (t + n)
  | [], n => by simp [npvFrom]
  | cf :: l, n => by
      rw [npvFrom_cons, npvFrom_eq_sum r l (n + 1), List.length_cons,
        Finset.sum_range_succ']
      simp only [List.getD_cons_succ, List.getD_cons_zero, Nat.zero_add]
      have harg : ∀ t : ℕ, t + 1 + n = t + (n + 1) := by omega
      rw [add_comm]
      exact congrArg (· + cf / (1 + r) ^ n)
        (Finset.sum_congr rfl (fun t _ => by rw [harg t]))

theorem npvFrom_map (r scale : ℚ) :
    ∀ (l : List ℚ) (n : ℕ),
      npvFrom r n (l.map (fun cf => scale * cf)) = scale * npvFrom r n l
  | [], n => by simp [npvFrom]
  | cf :: l, n => by
      rw [List.map_cons, npvFrom_cons, npvFrom_cons, npvFrom_map r scale l (n + 1),
        mul_add, mul_div_assoc]

theorem npvTermsE_ok (r : ℚ) (h : 1 + r ≠ 0) :
    ∀ (l : List ℚ) (n : ℕ), npvTermsE r n l = Except.ok (npvFrom r n l)
  | [], n => by simp [npvTermsE, npvFrom]
  | cf :: l, n => by
      have ih := npvTermsE_ok r h l (n + 1)
      simp only [npvTermsE, if_neg (pow_ne_zero n h), ih]
      rw [npvFrom_cons]

theorem npvE_ok (flows : List ℚ) (r : ℚ) (h : 1 + r ≠ 0) :
    npvE flows r = Except.ok (calculate_npv flows r) :=
  npvTermsE_ok r h flows 1

theorem npvE_ok_value (flows : List ℚ) (r v : ℚ)
    (h : npvE flows r = Except.ok v) : v = calculate_npv flows r := by
  by_cases hr : 1 + r = 0
  · cases flows with
    | nil =>
        rw [npvE] at h
        simp only [npvTermsE, Except.ok.injEq] at h
        rw [← h]
        rfl
    | cons cf l =>
        rw [npvE] at h
        simp only [npvTermsE] at h
        rw [if_pos (by rw [pow_one]; exact hr)] at h
        cases h
  · rw [npvE_ok flows r hr] at h
    exact (Except.ok.injEq _ _).mp h.symm

theorem linspace_length (a b : ℚ) (n : ℕ) : (linspace a b n).length = n := by
  unfold linspace
  split <;> rw [List.length_map, List.length_range]

theorem ramp_curve_length (pr : ℚ) (n : ℕ) : (ramp_curve pr n).length = n := by
  simp [ramp_curve, linspace_length]

theorem peak_curve_length (pr : ℚ) (n : ℕ) : (peak_curve pr n).length = n := by
  simp [peak_curve]

theorem decline_curve_length (pr : ℚ) (d : ℕ) (rate : ℚ) :
    (decline_curve pr d rate).length = d := by
  simp [decline_curve]

theorem calculate_revenue_curve_length (pop price pen : ℚ) (ramp peak decl : ℕ) (rate : ℚ) :
    (calculate_revenue_curve pop price pen ramp peak decl rate).length =
      ramp + peak + decl := by
  simp only [calculate_revenue_curve, List.length_append, ramp_curve_length,
    peak_curve_length, decline_curve_length]

theorem decline_curve_getD (pr rate : ℚ) (d i : ℕ) (h : i < d) :
    (decline_curve pr d rate).getD i 0 = pr * (1 - rate) ^ (i + 1) := by
  rw [decline_curve, List.getD_eq_getElem?_getD, List.getElem?_map,
    List.getElem?_range' 1 1 h]
  have harg : 1 + 1 * i = i + 1 := by omega
  simp only [Option.map_some', Option.getD_some, harg]

theorem linspace_getD (a b : ℚ) (n i : ℕ) (h2 : 2 ≤ n) (hi : i < n) :
    (linspace a b n).getD i 0 = a + (b - a) * i / ((n : ℚ) - 1) := by
  rw [linspace, if_neg (by omega), List.getD_eq_getElem?_getD, List.getElem?_map,
    List.getElem?_range hi]
  simp only [Option.map_some', Option.getD_some]

theorem ramp_curve_getD (pr : ℚ) (n i : ℕ) (h2 : 2 ≤ n) (hi : i < n) :
    (ramp_curve pr n).getD i 0 =
      pr * (1 / 10 + (1 - 1 / 10) * i / ((n : ℚ) - 1)) := by
  rw [ramp_curve, List.getD_eq_getElem?_getD, List.getElem?_map]
  have hlen : i < (linspace (1 / 10) 1 n).length := by rw [linspace_length]; exact hi
  rw [List.getElem?_eq_getElem hlen]
  have hval := linspace_getD (1 / 10) 1 n i h2 hi
  rw [List.getD_eq_getElem _ _ hlen] at hval
  simp only [Option.map_some', Option.getD_some]
  rw [hval]

/-- Inversion of the aggregator: whenever it returns a result, that
result is exactly the record built from the coerced market cap, the raw
and effective shares and the NPV of the flows. -/
theorem cfmv_ok_inv (s : MarketSnapshot) (flows : List ℚ) (r : ℚ)
    (res : ValuationResult)
    (h : calculate_fair_market_values s flows r = Except.ok res) :
    res = ⟨(if raw_shares_outstanding s > 0 then
              coerced_market_cap s / raw_shares_outstanding s else 0),
           projected_market_cap (coerced_market_cap s) (calculate_npv flows r) /
             effective_shares_outstanding s,
           calculate_npv flows r⟩ := by
  rw [calculate_fair_market_values] at h
  cases hn : npvE flows r with
  | error e => rw [hn] at h; cases h
  | ok v =>
      rw [hn] at h
      have hv := npvE_ok_value flows r v hn
      simp only [Except.ok.injEq] at h
      rw [← h, hv]

/-! ### Claim theorems -/

/-- C4: for every cash-flow sequence and every discount rate r above -1,
calculate_npv returns the sum over t = 1..n of cashflow t divided by
(1 + r) to the t, so the first element is discounted one period, and the
NPV of the empty sequence is 0. -/
theorem npv_one_based_convention (cash_flows : List ℚ) (r : ℚ) (h : r > -1) :
    calculate_npv cash_flows r =
      ∑ t ∈ Finset.range cash_flows.length,
        cash_flows.getD t 0 / (1 + r) ^ (t + 1) ∧
    calculate_npv [] r = 0 :=
  ⟨npvFrom_eq_sum r cash_flows 1, rfl⟩

/-- Witness for C4 at the one-element sequence [11] and rate 0. -/
theorem npv_one_based_convention_witness :
    (0 : ℚ) > -1 ∧
    (calculate_npv [11] 0 =
      ∑ t ∈ Finset.range (List.length [(11 : ℚ)]),
        [(11 : ℚ)].getD t 0 / (1 + 0) ^ (t + 1) ∧
     calculate_npv [] 0 = 0) :=
  ⟨by norm_num, npv_one_based_convention [11] 0 (by norm_num)⟩

/-- C5 counterexample: at discount rate -1 with the single cash flow
100, the computation fails with Python's ZeroDivisionError, which is not
the InvalidInput error the claim demands. -/
theorem npv_rate_neg_one_error_kind :
    npvE [100] (-1) = Except.error PyError.zeroDivision ∧
    (Except.error PyError.zeroDivision : Except PyError ℚ) ≠
      Except.error PyError.invalidInput := by
  constructor
  · norm_num [npvE, npvTermsE]
  · intro h
    injection h with h2
    cases h2

/-- C5 amended: for discount rate -1 and at least one cash flow, the NPV
computation fails deterministically with a ZeroDivisionError (there is
no InvalidInput validation in the code) rather than producing a value. -/
theorem npv_rate_neg_one_raises (cash_flows : List ℚ) (h : cash_flows ≠ []) :
    npvE cash_flows (-1) = Except.error PyError.zeroDivision := by
  cases cash_flows with
  | nil => exact absurd rfl h
  | cons cf rest => norm_num [npvE, npvTermsE]

/-- Witness for the amended C5 at the sequence [100]. -/
theorem npv_rate_neg_one_raises_witness :
    ([100] : List ℚ) ≠ [] ∧
    npvE [100] (-1) = Except.error PyError.zeroDivision :=
  ⟨by simp, npv_rate_neg_one_raises [100] (by simp)⟩

/-- C8: NPV is linear in the cash flows, for every scalar scale, every
sequence and every discount rate above -1. -/
theorem npv_linear_in_cash_flows (scale : ℚ) (cash_flows : List ℚ) (r : ℚ)
    (h : r > -1) :
    calculate_npv (cash_flows.map (fun cf => scale * cf)) r =
      scale * calculate_npv cash_flows r :=
  npvFrom_map r scale cash_flows 1

/-- Witness for C8 with scale 2, sequence [3] and rate 0. -/
theorem npv_linear_in_cash_flows_witness :
    (0 : ℚ) > -1 ∧
    calculate_npv (([3] : List ℚ).map (fun cf => 2 * cf)) 0 =
      2 * calculate_npv [3] 0 :=
  ⟨by norm_num, npv_linear_in_cash_flows 2 [3] 0 (by norm_num)⟩

/-- C9: the cash-flow simulator output is exactly delay_years copies of
the fixed negative constant -500e6 followed by the revenue curve, the
revenue curve has length ramp + peak + decline, and the total length is
delay + ramp + peak + decline. -/
theorem pipeline_cash_flow_structure (pop price pen : ℚ)
    (delay ramp peak decl : ℕ) (rate : ℚ) :
    simulate_pipeline_cash_flows pop price pen delay ramp peak decl rate =
      List.replicate delay (-500000000) ++
        calculate_revenue_curve pop price pen ramp peak decl rate ∧
    (-500000000 : ℚ) < 0 ∧
    (calculate_revenue_curve pop price pen ramp peak decl rate).length =
      ramp + peak + decl ∧
    (simulate_pipeline_cash_flows pop price pen delay ramp peak decl rate).length =
      delay + (ramp + peak + decl) := by
  refine ⟨rfl, by norm_num,
    calculate_revenue_curve_length pop price pen ramp peak decl rate, ?_⟩
  rw [simulate_pipeline_cash_flows, List.length_append, List.length_replicate,
    calculate_revenue_curve_length]

/-- C2 counterexample: the pipeline on the spec's end-to-end inputs does
produce the stated risk-adjusted curve, but its NPV at 10% differs from
the claimed 3,175,000,000 by more than 100 million (it is about
2,877,061,676), far beyond any floating-point tolerance. -/
theorem end_to_end_npv_counterexample :
    risk_adjusted_cash_flows (PHASE_PROBABILITIES Phase.phase2)
        (simulate_pipeline_cash_flows 100000 50000 70 0 2 1 1 (1 / 10)) =
      [126000000, 1260000000, 1260000000, 1134000000] ∧
    100000000 <
      |calculate_npv [126000000, 1260000000, 1260000000, 1134000000] (1 / 10) -
        3175000000| := by
  constructor
  · norm_num [risk_adjusted_cash_flows, PHASE_PROBABILITIES,
      simulate_pipeline_cash_flows, calculate_revenue_curve, peak_revenue_of,
      ramp_curve, peak_curve, decline_curve, linspace, List.range_succ,
      List.range'_succ, List.replicate]
  · have hnpv : calculate_npv [126000000, 1260000000, 1260000000, 1134000000]
        (1 / 10) = 42123060000000 / 14641 := by
      norm_num [calculate_npv, npvFrom, List.enumFrom]
    rw [hnpv, abs_of_nonpos (by norm_num)]
    norm_num

/-- C2 amended: on the end-to-end inputs the risk-adjusted curve is
[1.26e8, 1.26e9, 1.26e9, 1.134e9] and the NPV at 10% is exactly
42123060000000 / 14641, approximately 2,877,061,676 (not the
3,175,000,000 stated by the spec). -/
theorem end_to_end_example_exact :
    risk_adjusted_cash_flows (PHASE_PROBABILITIES Phase.phase2)
        (simulate_pipeline_cash_flows 100000 50000 70 0 2 1 1 (1 / 10)) =
      [126000000, 1260000000, 1260000000, 1134000000] ∧
    calculate_npv [126000000, 1260000000, 1260000000, 1134000000] (1 / 10) =
      42123060000000 / 14641 := by
  constructor
  · norm_num [risk_adjusted_cash_flows, PHASE_PROBABILITIES,
      simulate_pipeline_cash_flows, calculate_revenue_curve, peak_revenue_of,
      ramp_curve, peak_curve, decline_curve, linspace, List.range_succ,
      List.range'_succ, List.replicate]
  · norm_num [calculate_npv, npvFrom, List.enumFrom]

/-- C3 counterexample: with ramp_years = 1 and peak_revenue = 100 (from
population 1, price 100, penetration 100), the ramp segment is the single
point [10]; the endpoint 1.0 x peak_revenue = 100 is not included, so
the claim fails at ramp_years = 1. -/
theorem ramp_single_point_counterexample :
    ramp_curve (peak_revenue_of 1 100 100) 1 = [10] ∧
    (1 : ℚ) * peak_revenue_of 1 100 100 ∉ ramp_curve (peak_revenue_of 1 100 100) 1 := by
  have hpr : peak_revenue_of 1 100 100 = 100 := by norm_num [peak_revenue_of]
  rw [hpr]
  constructor
  · norm_num [ramp_curve, linspace, List.range_succ]
  · norm_num [ramp_curve, linspace, List.range_succ]

/-- C3 amended: for every peak_revenue and every ramp_years at least 2,
the ramp segment consists of exactly ramp_years points linearly
interpolated between 10% and 100% of peak_revenue with both endpoints
included; for ramp_years = 1 the segment is the single point
0.1 x peak_revenue (established by the counterexample above). -/
theorem ramp_curve_interpolation (pr : ℚ) (n : ℕ) (h2 : 2 ≤ n) :
    (ramp_curve pr n).length = n ∧
    (ramp_curve pr n).getD 0 0 = pr * (1 / 10) ∧
    (ramp_curve pr n).getD (n - 1) 0 = pr * 1 ∧
    ∀ i, i < n → (ramp_curve pr n).getD i 0 =
      pr * (1 / 10 + (1 - 1 / 10) * i / ((n : ℚ) - 1)) := by
  have hn0 : (0 : ℕ) < n := by omega
  have hne : ((n : ℚ) - 1) ≠ 0 := by
    have hc : (2 : ℚ) ≤ (n : ℚ) := by exact_mod_cast h2
    linarith
  refine ⟨ramp_curve_length pr n, ?_, ?_, fun i hi => ramp_curve_getD pr n i h2 hi⟩
  · rw [ramp_curve_getD pr n 0 h2 hn0]
    norm_num
  · rw [ramp_curve_getD pr n (n - 1) h2 (by omega)]
    have hcast : ((n - 1 : ℕ) : ℚ) = (n : ℚ) - 1 := by
      rw [Nat.cast_sub (by omega)]
      norm_num
    rw [hcast, mul_div_assoc, div_self hne]
    norm_num

/-- Witness for the amended C3 at peak_revenue 7 and ramp_years 3. -/
theorem ramp_curve_interpolation_witness :
    2 ≤ 3 ∧
    ((ramp_curve 7 3).length = 3 ∧
     (ramp_curve 7 3).getD 0 0 = 7 * (1 / 10) ∧
     (ramp_curve 7 3).getD (3 - 1) 0 = 7 * 1 ∧
     (ramp_curve 7 3).getD 1 0 =
       7 * (1 / 10 + (1 - 1 / 10) * ((1 : ℕ) : ℚ) / (((3 : ℕ) : ℚ) - 1))) := by
  have h := ramp_curve_interpolation 7 3 (by norm_num)
  exact ⟨by norm_num, h.1, h.2.1, h.2.2.1, h.2.2.2 1 (by norm_num)⟩

/-- C7: for nonnegative peak_revenue and decline_rate in [0, 1], the
decline segment is non-increasing from one year to the next, and is
constant equal to peak_revenue when decline_rate = 0.  The getD access
past the end of the segment defaults to 0, which every segment element
dominates, so adjacency is stated for all indices. -/
theorem decline_curve_monotone (pr : ℚ) (d : ℕ) (rate : ℚ)
    (hpr : 0 ≤ pr) (h0 : 0 ≤ rate) (h1 : rate ≤ 1) :
    (∀ i : ℕ, (decline_curve pr d rate).getD (i + 1) 0 ≤
      (decline_curve pr d rate).getD i 0) ∧
    (rate = 0 → ∀ i, i < d → (decline_curve pr d rate).getD i 0 = pr) := by
  have hbase : (0 : ℚ) ≤ 1 - rate := by linarith
  have helem : ∀ j : ℕ, 0 ≤ pr * (1 - rate) ^ (j + 1) :=
    fun j => mul_nonneg hpr (pow_nonneg hbase _)
  constructor
  · intro i
    rcases lt_or_ge (i + 1) d with hlt | hge
    · rw [decline_curve_getD pr rate d (i + 1) hlt,
        decline_curve_getD pr rate d i (by omega)]
      refine mul_le_mul_of_nonneg_left ?_ hpr
      rw [pow_succ]
      exact mul_le_of_le_one_right (pow_nonneg hbase _) (by linarith)
    · rw [List.getD_eq_default _ _ (by rw [decline_curve_length]; omega)]
      rcases lt_or_ge i d with hid | hid
      · rw [decline_curve_getD pr rate d i hid]
        exact helem i
      · rw [List.getD_eq_default _ _ (by rw [decline_curve_length]; omega)]
  · intro hrate i hid
    rw [decline_curve_getD pr rate d i hid, hrate]
    norm_num

/-- Witness for C7 at peak_revenue 4, decline_years 2, decline_rate 0. -/
theorem decline_curve_monotone_witness :
    (0 : ℚ) ≤ 4 ∧ (0 : ℚ) ≤ 0 ∧ (0 : ℚ) ≤ 1 ∧
    (decline_curve 4 2 0).getD (0 + 1) 0 ≤ (decline_curve 4 2 0).getD 0 0 ∧
    (decline_curve 4 2 0).getD 0 0 = 4 := by
  have h := decline_curve_monotone 4 2 0 (by norm_num) (le_refl 0) (by norm_num)
  exact ⟨by norm_num, le_refl 0, by norm_num, h.1 0, h.2 rfl 0 (by norm_num)⟩

/-- C1 counterexample: with market_cap 5e9 and shares_outstanding 0 the
aggregator returns current_price_per_share = 0 (the else-branch of the
guarded division), not market_cap / 1,000,000 = 5000 as the claim
requires; only the projected price uses the 1e6 fallback divisor. -/
theorem current_price_no_fallback_counterexample :
    calculate_fair_market_values ⟨some 5000000000, some 0⟩ [] 1 =
      Except.ok ⟨0, 5000, 0⟩ ∧
    (0 : ℚ) ≠ 5000000000 / 1000000 := by
  constructor
  · norm_num [calculate_fair_market_values, npvE, npvTermsE, coerced_market_cap,
      raw_shares_outstanding, effective_shares_outstanding, projected_market_cap,
      calculate_npv, npvFrom]
  · norm_num

/-- C1 amended: when the supplied shares_outstanding is not positive,
the 1,000,000 fallback is used only in the projected-price division;
current_price_per_share is 0 instead of market_cap / 1,000,000. -/
theorem shares_fallback_projected_only (s : MarketSnapshot) (flows : List ℚ)
    (r : ℚ) (res : ValuationResult)
    (hsh : raw_shares_outstanding s ≤ 0)
    (h : calculate_fair_market_values s flows r = Except.ok res) :
    res.current_price_per_share = 0 ∧
    res.projected_price_per_share =
      projected_market_cap (coerced_market_cap s) res.npv_pipeline / 1000000 := by
  have hres := cfmv_ok_inv s flows r res h
  subst hres
  constructor
  · show (if raw_shares_outstanding s > 0 then
        coerced_market_cap s / raw_shares_outstanding s else 0) = 0
    rw [if_neg (not_lt.mpr hsh)]
  · show projected_market_cap (coerced_market_cap s) (calculate_npv flows r) /
        effective_shares_outstanding s =
      projected_market_cap (coerced_market_cap s) (calculate_npv flows r) / 1000000
    rw [effective_shares_outstanding, if_pos hsh]

/-- Witness for the amended C1: market_cap 2e6, shares 0, no flows. -/
theorem shares_fallback_projected_only_witness :
    raw_shares_outstanding ⟨some 2000000, some 0⟩ ≤ 0 ∧
    calculate_fair_market_values ⟨some 2000000, some 0⟩ [] 0 =
      Except.ok ⟨0, 2, 0⟩ ∧
    ((⟨0, 2, 0⟩ : ValuationResult).current_price_per_share = 0 ∧
     (⟨0, 2, 0⟩ : ValuationResult).projected_price_per_share =
       projected_market_cap (coerced_market_cap ⟨some 2000000, some 0⟩)
         ((⟨0, 2, 0⟩ : ValuationResult).npv_pipeline) / 1000000) := by
  have h1 : raw_shares_outstanding ⟨some 2000000, some 0⟩ ≤ 0 := by
    norm_num [raw_shares_outstanding]
  have h2 : calculate_fair_market_values ⟨some 2000000, some 0⟩ [] 0 =
      Except.ok ⟨0, 2, 0⟩ := by
    norm_num [calculate_fair_market_values, npvE, npvTermsE, coerced_market_cap,
      raw_shares_outstanding, effective_shares_outstanding, projected_market_cap,
      calculate_npv, npvFrom]
  exact ⟨h1, h2, shares_fallback_projected_only _ _ _ _ h1 h2⟩

/-- C6: whenever the aggregator returns a result, its npv_pipeline is
the NPV of the flows, its projected price is the projected market cap
divided by the effective shares, and that projected market cap equals
max(0, market_cap + npv_pipeline), hence is never negative. -/
theorem projected_market_cap_floor (s : MarketSnapshot) (flows : List ℚ)
    (r : ℚ) (res : ValuationResult)
    (h : calculate_fair_market_values s flows r = Except.ok res) :
    res.npv_pipeline = calculate_npv flows r ∧
    res.projected_price_per_share =
      projected_market_cap (coerced_market_cap s) res.npv_pipeline /
        effective_shares_outstanding s ∧
    projected_market_cap (coerced_market_cap s) res.npv_pipeline =
      max 0 (coerced_market_cap s + res.npv_pipeline) ∧
    0 ≤ projected_market_cap (coerced_market_cap s) res.npv_pipeline := by
  have hres := cfmv_ok_inv s flows r res h
  subst hres
  exact ⟨rfl, rfl, rfl, le_max_left 0 _⟩

/-- Witness for C6: market_cap 100, shares 4, no flows, rate 0. -/
theorem projected_market_cap_floor_witness :
    calculate_fair_market_values ⟨some 100, some 4⟩ [] 0 =
      Except.ok ⟨25, 25, 0⟩ ∧
    ((⟨25, 25, 0⟩ : ValuationResult).npv_pipeline = calculate_npv [] 0 ∧
     (⟨25, 25, 0⟩ : ValuationResult).projected_price_per_share =
       projected_market_cap (coerced_market_cap ⟨some 100, some 4⟩)
         ((⟨25, 25, 0⟩ : ValuationResult).npv_pipeline) /
         effective_shares_outstanding ⟨some 100, some 4⟩ ∧
     projected_market_cap (coerced_market_cap ⟨some 100, some 4⟩)
         ((⟨25, 25, 0⟩ : ValuationResult).npv_pipeline) =
       max 0 (coerced_market_cap ⟨some 100, some 4⟩ +
         (⟨25, 25, 0⟩ : ValuationResult).npv_pipeline) ∧
     0 ≤ projected_market_cap (coerced_market_cap ⟨some 100, some 4⟩)
         ((⟨25, 25, 0⟩ : ValuationResult).npv_pipeline)) := by
  have hok : calculate_fair_market_values ⟨some 100, some 4⟩ [] 0 =
      Except.ok ⟨25, 25, 0⟩ := by
    norm_num [calculate_fair_market_values, npvE, npvTermsE, coerced_market_cap,
      raw_shares_outstanding, effective_shares_outstanding, projected_market_cap,
      calculate_npv, npvFrom]
  exact ⟨hok, projected_market_cap_floor _ _ _ _ hok⟩

/-- C10: when the market-cap field is absent or holds None or 0, the
aggregator still returns a result with the market cap coerced to 0:
the current price is 0 and the projected price is max(0, npv_pipeline)
divided by the effective shares outstanding.  The discount rate is
restricted to values other than -1 so that the NPV step itself does not
raise. -/
theorem missing_market_cap_defaults (s : MarketSnapshot) (flows : List ℚ)
    (r : ℚ) (hmc : s.market_cap = none ∨ s.market_cap = some 0)
    (hr : r ≠ -1) :
    calculate_fair_market_values s flows r =
      Except.ok ⟨0, max 0 (calculate_npv flows r) / effective_shares_outstanding s,
        calculate_npv flows r⟩ := by
  have h1 : (1 : ℚ) + r ≠ 0 := fun hh => hr (by linarith)
  have hmc0 : coerced_market_cap s = 0 := by
    rcases hmc with hmc | hmc <;> simp [coerced_market_cap, hmc]
  rw [calculate_fair_market_values, npvE_ok flows r h1, hmc0]
  simp only [projected_market_cap, zero_add, zero_div, ite_self]

/-- Witness for C10: market-cap field absent, shares 10, no flows. -/
theorem missing_market_cap_defaults_witness :
    ((⟨none, some 10⟩ : MarketSnapshot).market_cap = none ∨
     (⟨none, some 10⟩ : MarketSnapshot).market_cap = some 0) ∧
    (0 : ℚ) ≠ -1 ∧
    calculate_fair_market_values ⟨none, some 10⟩ [] 0 =
      Except.ok ⟨0, max 0 (calculate_npv [] 0) /
          effective_shares_outstanding ⟨none, some 10⟩,
        calculate_npv [] 0⟩ :=
  ⟨Or.inl rfl, by norm_num,
   missing_market_cap_defaults ⟨none, some 10⟩ [] 0 (Or.inl rfl) (by norm_num)⟩

end Pharmagellan
